import Mathlib

/-!
Verification of the request-admission and asynchronous job-orchestration layer
of the sponsorscope repository, against its natural-language specification.

The TypeScript client code (the polling hook in `useAnalysisJob`, the platform
detector in `SearchDialog`, the error classifier in `usePlatformResistance`)
is embedded directly from the source.  The backend Python components (rate
limiter, budget manager, job registry/orchestrator, background worker) exist
in the repository only as documentation, configuration and callers; they are
modelled from the specification text, and each such definition is marked
`Modelled from the spec:` in its doc comment.
-/

namespace SponsorScope

/-! ## Platform detection (SearchDialog, `detectPlatform`)

Source (part_010, lines 67-77):

  const instagram = /(?:@|(?:instagram\.com\/))([a-zA-Z0-9_.]+)/;
  const tiktok = /(?:@|(?:tiktok\.com\/[@]?))([a-zA-Z0-9_.]+)/;
  const youtube = /(?:@|(?:youtube\.com\/[@]))([a-zA-Z0-9_.]+)/;
  if (instagram.test(input)) return platforms.find(p => p.id === 'instagram') || null;
  if (tiktok.test(input)) return platforms.find(p => p.id === 'tiktok') || null;
  if (youtube.test(input)) return platforms.find(p => p.id === 'youtube') || null;
  return null;

`RegExp.test` searches for a match starting at any position of the input.
The character class `[a-zA-Z0-9_.]` is ASCII letters, digits, underscore and
dot; `Char.isAlphanum` in Lean is exactly ASCII letters and digits.
-/

/-- The JS character class `[a-zA-Z0-9_.]`. -/
def isHandleChar (c : Char) : Bool :=
  c.isAlphanum || c = '_' || c = '.'

/-- Match a literal string at the head of the input, returning the remaining
suffix on success. -/
def matchLit : List Char → List Char → Option (List Char)
  | [], s => some s
  | _, [] => none
  | l :: ls, c :: cs => if c = l then matchLit ls cs else none

/-- Does the suffix start with at least one handle character (the `+` of the
regex only needs one character for a successful test)? -/
def headHandle : List Char → Bool
  | [] => false
  | c :: _ => isHandleChar c

/-- Does a literal followed by at least one handle character match here? -/
def litThenHandle (lit : String) (s : List Char) : Bool :=
  match matchLit lit.toList s with
  | some rest => headHandle rest
  | none => false

/-- The Instagram alternation `(?:@|(?:instagram\.com\/))([a-zA-Z0-9_.]+)`
matching at the current position. -/
def igAt (s : List Char) : Bool :=
  litThenHandle "@" s || litThenHandle "instagram.com/" s

/-- The TikTok alternation `(?:@|(?:tiktok\.com\/[@]?))([a-zA-Z0-9_.]+)`
matching at the current position (the `[@]?` makes the `@` after the literal
optional). -/
def ttAt (s : List Char) : Bool :=
  litThenHandle "@" s || litThenHandle "tiktok.com/@" s
    || litThenHandle "tiktok.com/" s

/-- The YouTube alternation `(?:@|(?:youtube\.com\/[@]))([a-zA-Z0-9_.]+)`
matching at the current position. -/
def ytAt (s : List Char) : Bool :=
  litThenHandle "@" s || litThenHandle "youtube.com/@" s

/-- Semantics of `RegExp.test`: the pattern matches starting at some position. -/
def scanTest (f : List Char → Bool) : List Char → Bool
  | [] => f []
  | c :: rest => f (c :: rest) || scanTest f rest

/-- The platform identifiers of the `platforms` array in `SearchDialog`. -/
inductive PlatformId where
  | instagram
  | tiktok
  | youtube
  | other
deriving DecidableEq, Repr

/-- The function `detectPlatform` from `SearchDialog` (part_010 lines 67-77): test the
Instagram pattern first, then TikTok, then YouTube; return the corresponding
entry of the `platforms` array (here its id), else null. -/
def detectPlatform (input : List Char) : Option PlatformId :=
  if scanTest igAt input then some .instagram
  else if scanTest ttAt input then some .tiktok
  else if scanTest ytAt input then some .youtube
  else none

/-! ## Polling backoff intervals (`useAnalysisJob`, part_008)

Source (lines 81-85, 141-148):

  const POLLING_INTERVALS = { initial: 2000, max: 30000, backoffMultiplier: 1.5 };
  ...
  attempts++;
  currentInterval = Math.min(currentInterval * POLLING_INTERVALS.backoffMultiplier,
                             POLLING_INTERVALS.max);
  setTimeout(poll, currentInterval);

Note the order: `currentInterval` starts at 2000 but is multiplied by 1.5
(and capped) before it is ever passed to `setTimeout`.  All arising values
are dyadic rationals, so modelling the JS doubles by rationals is exact. -/

/-- The constant `POLLING_INTERVALS.initial`. -/
def pollInitial : ℚ := 2000

/-- The constant `POLLING_INTERVALS.max`. -/
def pollMax : ℚ := 30000

/-- The interval update performed on each continued poll:
`Math.min(currentInterval * 1.5, 30000)`. -/
def nextInterval (i : ℚ) : ℚ :=
  min (i * (3 / 2)) pollMax

/-- The sequence of delays actually handed to `setTimeout`: the n-th continued
poll is scheduled after `delaySeq n` milliseconds.  The update runs before the
first `setTimeout`, so the sequence starts at `nextInterval 2000`. -/
def delaySeq : ℕ → ℚ
  | 0 => nextInterval pollInitial
  | n + 1 => nextInterval (delaySeq n)

/-! ## The polling loop (`pollJobStatus` in `useAnalysisJob`, part_008 lines 93-156)

Each iteration of `poll`:
  - stops with a timeout error when `attempts >= maxAttempts` (120);
  - fetches `/api/status/{jobId}`; a non-ok HTTP status throws
    `Status check failed: {status}`, which the surrounding catch turns into
    `setError`;
  - on `statusData.phase === 'completed'` fetches `/api/report/{jobId}`
    (a non-ok status throws `Failed to fetch report: {status}`), stores the
    report and stops;
  - on `statusData.phase === 'failed'` stops with
    `setError(statusData.error || 'Analysis failed')`;
  - otherwise increments `attempts`, updates the interval and reschedules.

The `setJob` call (which displays `statusData.phase || 'analysis'` and the
progress value) only updates UI state and is not part of the control flow
modelled here. -/

/-- One response of the status endpoint as observed by the client: the HTTP
status of the status fetch, the `phase`/`error` fields of its JSON body, and
the HTTP status the report fetch would return (consulted only in the
completed branch). -/
structure StatusResponse where
  status : ℕ
  phase : Option String
  jobError : Option String
  reportStatus : ℕ
deriving Repr

/-- The `Response.ok` test of the fetch API: HTTP status in the range 200-299. -/
def isOkStatus (s : ℕ) : Bool :=
  200 ≤ s && s ≤ 299

/-- The constant `maxAttempts = 120` in `pollJobStatus`. -/
def maxAttempts : ℕ := 120

/-- How a run of the polling loop ends. -/
inductive PollOutcome where
  /-- The call `setError("Analysis timeout: Job took too long to complete")`. -/
  | timeout
  /-- the catch branch: `setError(err.message)`. -/
  | caught (msg : String)
  /-- report fetched and stored, `setLoading(false)`. -/
  | success
  /-- phase `failed`: `setError(statusData.error || 'Analysis failed')`. -/
  | failedJob (msg : String)
deriving DecidableEq, Repr

/-- The polling loop from the state `(attempts, currentInterval)` on, given
the stream of server responses (`resp n` is the response to the fetch made
with `attempts = n`).  Returns the outcome together with the number of status
fetches performed. -/
def pollAux (resp : ℕ → StatusResponse) (attempts : ℕ) (interval : ℚ) :
    PollOutcome × ℕ :=
  if _h : maxAttempts ≤ attempts then (.timeout, 0)
  else
    if isOkStatus (resp attempts).status then
      if (resp attempts).phase = some "completed" then
        if isOkStatus (resp attempts).reportStatus then (.success, 1)
        else (.caught ("Failed to fetch report: "
          ++ toString (resp attempts).reportStatus), 1)
      else if (resp attempts).phase = some "failed" then
        (.failedJob ((resp attempts).jobError.getD "Analysis failed"), 1)
      else
        ((pollAux resp (attempts + 1) (nextInterval interval)).1,
         (pollAux resp (attempts + 1) (nextInterval interval)).2 + 1)
    else
      (.caught ("Status check failed: " ++ toString (resp attempts).status), 1)
termination_by maxAttempts - attempts
decreasing_by omega

/-- The whole of `pollJobStatus`: the loop starts with `attempts = 0` and
`currentInterval = POLLING_INTERVALS.initial`. -/
def pollJobStatus (resp : ℕ → StatusResponse) : PollOutcome × ℕ :=
  pollAux resp 0 pollInitial

/-- A response that keeps the loop polling: the fetch succeeded and the phase
is neither `completed` nor `failed`. -/
def continues (r : StatusResponse) : Prop :=
  isOkStatus r.status = true ∧ r.phase ≠ some "completed" ∧ r.phase ≠ some "failed"

/-! ## The other client polling loop (`useReport`, part_015)

Each iteration of its `poll` closure fetches `/api/report/{handle}` and
branches on the HTTP status alone — there is no attempt counter:
  - 200: store the report, `setLoading(false)`, stop;
  - 202: `timeoutId = setTimeout(poll, 2000)` — reschedule after a fixed
    2000 ms, unconditionally: no attempt bound, no backoff, no local
    timeout error;
  - 503, 410, 404: throw the corresponding message; any other status throws
    `Failed to fetch report (Status: ...)`; the catch sets the error and
    stops.
(The `isMounted` unmount guard only abandons state updates; it is not a
timeout.) -/

/-- How a `useReport` poll run ends, when it ends: HTTP 200 stores the
report; every non-200/202 status sets an error message. -/
inductive ReportPollOutcome where
  | success
  | errorSet (msg : String)
deriving DecidableEq, Repr

/-- The error message thrown for a non-200/202 status in `useReport`. -/
def reportErrorMsg (status : ℕ) : String :=
  if status = 503 then
    "System Maintenance: Our servers are currently over capacity or under maintenance. Please try again later."
  else if status = 410 then
    "Data Gone: This report has been permanently removed or the account is no longer accessible."
  else if status = 404 then
    "Report not found: We could not locate this handle on the platform."
  else "Failed to fetch report (Status: " ++ toString status ++ ")"

/-- The `useReport` polling loop observed for at most `fuel` iterations,
`rstat j` being the HTTP status of the j-th fetch and `k` the index of the
current iteration.  `none` means the loop is still polling after `fuel`
iterations — the code carries no attempt counter, so nothing but the
response status can stop it (on 202 it merely reschedules itself after a
fixed 2000 ms). -/
def reportPollRun (rstat : ℕ → ℕ) (k : ℕ) : ℕ → Option ReportPollOutcome
  | 0 => none
  | fuel + 1 =>
    if rstat k = 200 then some .success
    else if rstat k = 202 then reportPollRun rstat (k + 1) fuel
    else some (.errorSet (reportErrorMsg (rstat k)))

/-! ## The client error classifier (`usePlatformResistance.ts`, lines 28-66)

  if (error?.response?.data?.type === 'platform_resistance') {
    setError(error.response.data);
  } else if (error?.response?.status === 429) {
    setError({ type: 'rate_limit', message: ... || 'Rate limit exceeded', ... });
  } else if (error?.response?.status === 403
             && error?.response?.data?.type === 'abuse_detection') {
    setError({ type: 'abuse_detection', message: ... || 'Request blocked', ... });
  } else if (error?.response?.status === 503) {
    setError({ type: errorType === 'token_limit' ? 'token_limit' : 'maintenance',
               message: ... || 'Service temporarily unavailable', ... });
  } else {
    const errorData = error?.response?.data;
    if (errorData?.type === 'platform_resistance' || errorData?.data_integrity_verdict) {
      setError(errorData);
    }
  }
-/

/-- The parts of the caught error object that the classifier inspects:
`error?.response?.status`, `error?.response?.data?.type`,
`error?.response?.data?.message`, and whether
`error?.response?.data?.data_integrity_verdict` is present (truthy). -/
structure ErrInput where
  status : Option ℕ
  dtype : Option String
  message : Option String
  hasVerdict : Bool
deriving DecidableEq, Repr

/-- The error object passed to `setError` (only the fields the claims talk
about: the `type` field and the `message` field).  When the classifier stores
a response body verbatim, `etype` is that body's own `type` field. -/
structure StoredError where
  etype : Option String
  message : Option String
deriving DecidableEq, Repr

/-- The classifier `handleResistanceError`; `none` means no `setError` call was made. -/
def handleResistanceError (e : ErrInput) : Option StoredError :=
  if e.dtype = some "platform_resistance" then
    some ⟨e.dtype, e.message⟩
  else if e.status = some 429 then
    some ⟨some "rate_limit", some (e.message.getD "Rate limit exceeded")⟩
  else if e.status = some 403 ∧ e.dtype = some "abuse_detection" then
    some ⟨some "abuse_detection", some (e.message.getD "Request blocked")⟩
  else if e.status = some 503 then
    some ⟨some (if e.dtype = some "token_limit" then "token_limit" else "maintenance"),
          some (e.message.getD "Service temporarily unavailable")⟩
  else if e.dtype = some "platform_resistance" ∨ e.hasVerdict = true then
    some ⟨e.dtype, e.message⟩
  else none

/-- The rejection-type taxonomy of spec §6:
the types rate_limit, abuse_detection, maintenance and token_limit. -/
def rejectionTaxonomy : List String :=
  ["rate_limit", "abuse_detection", "maintenance", "token_limit"]

/-! ## Job phases and the worker state machine

The client-side phase union (part_008 line 64):
`type AnalysisPhase = 'scraping' | 'analysis' | 'finalizing' | 'completed' | 'failed'`
and the display order (AnalysisProgress.tsx line 31):
`const phaseOrder: AnalysisPhase[] = ['scraping', 'analysis', 'finalizing']`.

The server-side state machine is not in the repository sources (only the
architecture document part_011 and audit docs describe it); it is modelled
from the spec. -/

/-- The values of the client union type `AnalysisPhase`. -/
def clientAnalysisPhases : List String :=
  ["scraping", "analysis", "finalizing", "completed", "failed"]

/-- The phase vocabulary of the spec
(`pending → scraping → analysis → finalizing → completed | failed`). -/
def specPhases : List String :=
  ["pending", "scraping", "analysis", "finalizing", "completed", "failed"]

/-- Modelled from the spec: the job phase
(`pending → scraping → analysis → finalizing → completed | failed`);
the server-side worker that drives it is absent from the sources. -/
inductive Phase where
  | pending
  | scraping
  | analysis
  | finalizing
  | completed
  | failed
deriving DecidableEq, Repr

/-- The position of a phase in the progression order, `failed` counted as a
final (sixth) position so that every allowed transition increases it. -/
def phaseRank : Phase → ℕ
  | .pending => 0
  | .scraping => 1
  | .analysis => 2
  | .finalizing => 3
  | .completed => 4
  | .failed => 5

/-- Terminal phases (`completed`/`failed`). -/
def phaseTerminal : Phase → Bool
  | .completed => true
  | .failed => true
  | _ => false

/-- Modelled from the spec: the transitions the background worker may
perform — the successive phases of
`pending → scraping → analysis → finalizing → completed`, and `failed`
reachable from any non-terminal phase. -/
inductive PhaseStep : Phase → Phase → Prop where
  | toScraping : PhaseStep .pending .scraping
  | toAnalysis : PhaseStep .scraping .analysis
  | toFinalizing : PhaseStep .analysis .finalizing
  | toCompleted : PhaseStep .finalizing .completed
  | toFailed (p : Phase) : phaseTerminal p = false → PhaseStep p .failed

/-! ## Job registry and orchestrator

Modelled from the spec (§3, §4.6) and the architecture document part_011
(`jobs:handle:{handle}:{platform} -> job_id (for deduplication)`,
"Idempotency: Use handle+platform composite key for deduplication"); the
FastAPI implementation is absent from the sources. -/

/-- A job record of the registry (part_011 §6.2's `JobState`, restricted to
the fields the claims are about; the result payload is abstract). -/
structure Job where
  id : ℕ
  handle : String
  platform : String
  phase : Phase
  error : Option String
  result : Option ℕ
  completedAt : Option ℕ
deriving DecidableEq, Repr

/-- Modelled from the spec: the dedup key is derived deterministically from
`(handle, platform)`, following part_011's Redis key
`jobs:handle:{handle}:{platform}`. -/
def dedupKey (handle platform : String) : String :=
  "jobs:handle:" ++ handle ++ ":" ++ platform

/-- The job registry plus the id generator.  `submit` is a single atomic
operation on this state: the spec requires the dedup check-then-create to be
an atomic insert-if-absent, so a concurrent execution of two submissions is
one of the two serial orders. -/
structure Orchestrator where
  jobs : List Job
  nextId : ℕ
deriving Repr

/-- The active (non-terminal) job for a dedup key, if any. -/
def findActive (o : Orchestrator) (k : String) : Option Job :=
  o.jobs.find? fun j => (dedupKey j.handle j.platform == k) && !phaseTerminal j.phase

/-- The `submit` result status: `"accepted"` for a newly created job,
`"existing"` for a deduplicated one. -/
inductive SubmitStatus where
  | accepted
  | existing
deriving DecidableEq, Repr

/-- The job freshly created by `submit`: `pending` phase, fresh id, no
error, no result. -/
def newJob (o : Orchestrator) (handle platform : String) : Job :=
  { id := o.nextId, handle := handle, platform := platform,
    phase := .pending, error := none, result := none, completedAt := none }

/-- Modelled from the spec: `submit(handle, platform)` — compute the dedup
key, return the active job's id if one exists, otherwise atomically create a
new `pending` job with a fresh id. -/
def submit (o : Orchestrator) (handle platform : String) :
    Orchestrator × ℕ × SubmitStatus :=
  match findActive o (dedupKey handle platform) with
  | some j => (o, j.id, .existing)
  | none =>
    ({ jobs := o.jobs ++ [newJob o handle platform], nextId := o.nextId + 1 },
     o.nextId, .accepted)

/-- Find a job by id. -/
def findJob (o : Orchestrator) (id : ℕ) : Option Job :=
  o.jobs.find? fun j => j.id == id

/-- Modelled from the spec: a terminal job expires at `completed_at + ttl`
(only terminal jobs record `completed_at`). -/
def jobExpired (ttl : ℕ) (j : Job) (now : ℕ) : Bool :=
  match j.completedAt with
  | some c => c + ttl ≤ now
  | none => false

/-- Outcome of `get_result`. -/
inductive ResultOutcome where
  | notFound
  | notReady
  | ok (r : ℕ)
deriving DecidableEq, Repr

/-- Modelled from the spec: `get_result(job_id)` fails with `NotFound` if the
id is unknown or expired, with `NotReady` if the phase is not `completed`,
and returns the stored result payload otherwise (never a missing payload). -/
def getResult (ttl : ℕ) (o : Orchestrator) (id : ℕ) (now : ℕ) : ResultOutcome :=
  match findJob o id with
  | none => .notFound
  | some j =>
    if jobExpired ttl j now then .notFound
    else if j.phase = Phase.completed then
      match j.result with
      | some r => .ok r
      | none => .notReady
    else .notReady

/-- Modelled from the spec: how the background worker finishes a job — on an
unrecovered collaborator error it writes `phase=failed` and populates
`error`; on success it writes `phase=completed` and stores the result. -/
def workerFinish (j : Job) (now : ℕ) (outcome : Except String ℕ) : Job :=
  match outcome with
  | .ok r =>
    { j with phase := .completed, result := some r, completedAt := some now }
  | .error msg =>
    { j with phase := .failed, error := some msg, completedAt := some now }

/-! ## Rate limiter

Modelled from the spec (§4.2): the Python `RateLimiter` is absent from the
sources (only the governance README documents it, with configured tiers
`RATE_LIMIT_RPM`/`RPH`/`RPD`).  For each of the three tiers, reset the
counter if its window has elapsed, test `count < limit`; if all three pass,
increment all three; if any fails, increment none and report the time
remaining in the soonest-to-reset failing tier's window.  Negative elapsed
time (clock moved backwards) is treated as zero elapsed. -/

/-- A sliding-window counter: `(count, window_start)`. -/
structure TierState where
  count : ℕ
  windowStart : ℤ
deriving DecidableEq, Repr

/-- A tier's configuration: its limit and its window duration (seconds). -/
structure TierConfig where
  limit : ℕ
  window : ℤ
deriving DecidableEq, Repr

/-- The three tiers of one client identity. -/
structure RLState where
  minute : TierState
  hour : TierState
  day : TierState
deriving DecidableEq, Repr

/-- Configured limits of the three tiers. -/
structure RLConfig where
  minute : TierConfig
  hour : TierConfig
  day : TierConfig
deriving DecidableEq, Repr

/-- Elapsed wall-clock time since the window start, with negative elapsed
time treated as zero. -/
def elapsed (now ws : ℤ) : ℤ :=
  max (now - ws) 0

/-- Modelled from the spec: reset the tier if its window has expired
(`now - window_start ≥ window_duration`). -/
def refreshTier (c : TierConfig) (t : TierState) (now : ℤ) : TierState :=
  if c.window ≤ elapsed now t.windowStart then ⟨0, now⟩ else t

/-- Time remaining in a tier's current window. -/
def tierRemaining (c : TierConfig) (t : TierState) (now : ℤ) : ℤ :=
  c.window - elapsed now t.windowStart

/-- Minimum of `acc` and every element of the list. -/
def listMin : List ℤ → ℤ → ℤ
  | [], acc => acc
  | x :: xs, acc => listMin xs (min acc x)

/-- Minimum of a list, `0` for the empty list (the empty case is unreachable
in `checkAndIncrement`: a rejected request has at least one failing tier). -/
def listMin0 : List ℤ → ℤ
  | [] => 0
  | x :: xs => listMin xs x

/-- Result of `check_and_increment`. -/
structure RLResult where
  allowed : Bool
  remainingMinute : ℕ
  remainingHour : ℕ
  remainingDay : ℕ
  retryAfter : ℤ
deriving DecidableEq, Repr

/-- Modelled from the spec: `check_and_increment(identity)`.  Refresh each
tier, test all three against their limits; on success increment all three,
on failure increment none and set `retry_after_seconds` to the minimum of
the remaining window times of the failing tiers. -/
def checkAndIncrement (cfg : RLConfig) (s : RLState) (now : ℤ) :
    RLState × RLResult :=
  let m := refreshTier cfg.minute s.minute now
  let h := refreshTier cfg.hour s.hour now
  let d := refreshTier cfg.day s.day now
  if m.count < cfg.minute.limit ∧ h.count < cfg.hour.limit ∧
      d.count < cfg.day.limit then
    (⟨⟨m.count + 1, m.windowStart⟩, ⟨h.count + 1, h.windowStart⟩,
      ⟨d.count + 1, d.windowStart⟩⟩,
     ⟨true, cfg.minute.limit - (m.count + 1), cfg.hour.limit - (h.count + 1),
      cfg.day.limit - (d.count + 1), 0⟩)
  else
    let failing :=
      (if cfg.minute.limit ≤ m.count then [tierRemaining cfg.minute m now] else [])
        ++ (if cfg.hour.limit ≤ h.count then [tierRemaining cfg.hour h now] else [])
        ++ (if cfg.day.limit ≤ d.count then [tierRemaining cfg.day d now] else [])
    let retry := listMin0 failing
    (⟨m, h, d⟩,
     ⟨false, cfg.minute.limit - m.count, cfg.hour.limit - h.count,
      cfg.day.limit - d.count, retry⟩)

/-- The remaining window times of the tiers that fail their limit test after
the refresh (the candidates for `retry_after_seconds`). -/
def failingRemainders (cfg : RLConfig) (s : RLState) (now : ℤ) : List ℤ :=
  (if cfg.minute.limit ≤ (refreshTier cfg.minute s.minute now).count then
    [tierRemaining cfg.minute (refreshTier cfg.minute s.minute now) now] else [])
    ++ (if cfg.hour.limit ≤ (refreshTier cfg.hour s.hour now).count then
      [tierRemaining cfg.hour (refreshTier cfg.hour s.hour now) now] else [])
    ++ (if cfg.day.limit ≤ (refreshTier cfg.day s.day now).count then
      [tierRemaining cfg.day (refreshTier cfg.day s.day now) now] else [])

/-! ## Budget manager

Modelled from the spec (§4.4, §3 Budget State): the Python `TokenManager` is
absent from the sources (only the governance README documents
`DAILY_TOKEN_LIMIT`/`DAILY_SPEND_LIMIT` and the audit report notes
"Automatic budget reset at midnight").  Every read or write first compares
the stored `day_boundary` with the current date and resets the counters if
the date has advanced, before applying the requested operation. -/

/-- Daily ceilings. -/
structure BudgetConfig where
  tokensLimit : ℤ
  spendLimit : ℚ
deriving DecidableEq, Repr

/-- The record `(tokens_used_today, spend_used_today, day_boundary)`; the day
boundary is a calendar-day number. -/
structure BudgetState where
  tokensUsedToday : ℤ
  spendUsedToday : ℚ
  dayBoundary : ℕ
deriving DecidableEq, Repr

/-- Modelled from the spec: the lazy day-boundary check — if the current
date has advanced past `day_boundary`, reset both counters to zero and move
the boundary to today; otherwise leave the state untouched. -/
def rollover (s : BudgetState) (today : ℕ) : BudgetState :=
  if s.dayBoundary < today then ⟨0, 0, today⟩ else s

/-- Modelled from the spec: `has_capacity(estimated_tokens)` — roll the day
over first, then test the estimated total against the ceilings.  Returns the
answer and the (possibly rolled-over) state. -/
def hasCapacity (cfg : BudgetConfig) (s : BudgetState) (today : ℕ)
    (estimatedTokens : ℕ) : Bool × BudgetState :=
  let s' := rollover s today
  (decide (s'.tokensUsedToday + estimatedTokens ≤ cfg.tokensLimit) &&
    decide (s'.spendUsedToday < cfg.spendLimit), s')

/-- Modelled from the spec: `record_consumption(tokens, cost)` — roll the
day over first, then add the reported consumption. -/
def recordConsumption (s : BudgetState) (today : ℕ) (tokens : ℕ) (cost : ℚ) :
    BudgetState :=
  let s' := rollover s today
  { s' with tokensUsedToday := s'.tokensUsedToday + tokens,
            spendUsedToday := s'.spendUsedToday + cost }

/-! # Theorems -/

/-! ## C10: bare `@handle` inputs are always classified as Instagram -/

/-- C10: for every input consisting of `@` followed by one or more
alphanumeric/underscore/dot characters, `detectPlatform` returns the
Instagram platform (the Instagram pattern is tested first and matches bare
`@handle` inputs), so TikTok and YouTube handles entered in `@name` form are
classified as Instagram and a platform is always detected for such input. -/
theorem detectPlatform_at_handle_instagram (c : Char) (rest : List Char)
    (hc : isHandleChar c = true)
    (hrest : ∀ x ∈ rest, isHandleChar x = true) :
    detectPlatform ('@' :: c :: rest) = some PlatformId.instagram := by
  have hig : igAt ('@' :: c :: rest) = true := by
    simp [igAt, litThenHandle, matchLit, headHandle, hc]
  have _hr := hrest
  simp [detectPlatform, scanTest, hig]

/-- Witness for C10 at the concrete input `"@tiktokuser"`. -/
theorem detectPlatform_at_handle_instagram_witness :
    detectPlatform ('@' :: 't' :: "iktokuser".toList) = some PlatformId.instagram :=
  detectPlatform_at_handle_instagram 't' "iktokuser".toList (by decide)
    (by decide)

/-! ## C9: the polling backoff delays -/

/-- The delay passed to `setTimeout` is never negative. -/
theorem delaySeq_nonneg (n : ℕ) : 0 ≤ delaySeq n := by
  induction n with
  | zero =>
    simp only [delaySeq, nextInterval, pollInitial, pollMax]
    norm_num
  | succ n ih =>
    simp only [delaySeq, nextInterval, pollMax]
    have : (0 : ℚ) ≤ delaySeq n * (3 / 2) := by positivity
    have h30 : (0 : ℚ) ≤ 30000 := by norm_num
    exact le_min this h30

/-- C9 counterexample: the first delay handed to `setTimeout` is 3000 ms,
not 2000 ms — `currentInterval` starts at 2000 but is multiplied by the
backoff factor (and capped) before its first use. -/
theorem delaySeq_first_is_3000 :
    delaySeq 0 = 3000 ∧ (3000 : ℚ) ≠ 2000 := by
  constructor
  · simp only [delaySeq, nextInterval, pollInitial, pollMax]
    norm_num [min_def]
  · norm_num

/-- C9 (amended): the inter-poll delays start at
`min(2000 × 1.5, 30000) = 3000` ms, each subsequent delay is
`min(previous × 1.5, 30000)`, and the sequence is monotonically
non-decreasing and bounded above by 30000 ms. -/
theorem delaySeq_monotone_bounded (n : ℕ) :
    delaySeq 0 = nextInterval pollInitial ∧
    delaySeq (n + 1) = nextInterval (delaySeq n) ∧
    delaySeq n ≤ delaySeq (n + 1) ∧
    delaySeq n ≤ pollMax := by
  refine ⟨rfl, rfl, ?_, ?_⟩
  · have h0 := delaySeq_nonneg n
    have hmax : delaySeq n ≤ pollMax := by
      cases n with
      | zero =>
        simp only [delaySeq, nextInterval]
        exact min_le_right _ _
      | succ m =>
        simp only [delaySeq, nextInterval]
        exact min_le_right _ _
    show delaySeq n ≤ nextInterval (delaySeq n)
    have h1 : delaySeq n ≤ delaySeq n * (3 / 2) := by linarith
    exact le_min h1 hmax
  · cases n with
    | zero =>
      simp only [delaySeq, nextInterval]
      exact min_le_right _ _
    | succ m =>
      simp only [delaySeq, nextInterval]
      exact min_le_right _ _

/-! ## C8: budget manager day-boundary rollover -/

/-- C8: every budget access first rolls the day boundary over — the
counters reset to zero exactly when the date has advanced, the rollover is
idempotent (a second access on the same day does not reset again),
`record_consumption` applies its update to the rolled-over state, and
`tokens_used_today` stays non-negative. -/
theorem budget_rollover_once_per_day (cfg : BudgetConfig) (s : BudgetState)
    (today : ℕ) (tokens estimated : ℕ) (cost : ℚ)
    (hpos : 0 ≤ s.tokensUsedToday) :
    (s.dayBoundary < today →
      rollover s today = ⟨0, 0, today⟩) ∧
    (¬ s.dayBoundary < today → rollover s today = s) ∧
    rollover (rollover s today) today = rollover s today ∧
    (hasCapacity cfg s today estimated).2 = rollover s today ∧
    (recordConsumption s today tokens cost).tokensUsedToday
      = (rollover s today).tokensUsedToday + tokens ∧
    (recordConsumption s today tokens cost).dayBoundary
      = (rollover s today).dayBoundary ∧
    0 ≤ (recordConsumption s today tokens cost).tokensUsedToday := by
  refine ⟨fun h => by simp [rollover, h], fun h => by simp [rollover, h],
    ?_, rfl, rfl, rfl, ?_⟩
  · by_cases h1 : s.dayBoundary < today
    · simp [rollover, h1]
    · simp [rollover, h1]
  · unfold recordConsumption rollover
    split_ifs with h1
    · simp
    · have h0 : (0 : ℤ) ≤ (tokens : ℤ) := Int.natCast_nonneg tokens
      show 0 ≤ s.tokensUsedToday + (tokens : ℤ)
      omega

/-- Witness for C8 at a concrete state whose boundary has advanced. -/
theorem budget_rollover_once_per_day_witness :
    rollover ⟨57, 2, 10⟩ 11 = ⟨0, 0, 11⟩ ∧
    rollover (rollover ⟨(57 : ℤ), (2 : ℚ), 10⟩ 11) 11
      = rollover ⟨(57 : ℤ), (2 : ℚ), 10⟩ 11 ∧
    0 ≤ (recordConsumption ⟨(57 : ℤ), (2 : ℚ), 10⟩ 11 5 1).tokensUsedToday := by
  have h := budget_rollover_once_per_day ⟨1000, 100⟩ ⟨57, 2, 10⟩ 11 5 3 1
    (by norm_num)
  exact ⟨h.1 (by norm_num), h.2.2.1, h.2.2.2.2.2.2⟩

/-! ## C3: job phases and monotone progression -/

/-- Every allowed worker transition strictly increases the phase rank, and
only leaves non-terminal phases. -/
theorem phaseStep_rank {p q : Phase} (h : PhaseStep p q) :
    phaseRank p < phaseRank q ∧ phaseTerminal p = false := by
  cases h with
  | toScraping => exact ⟨by decide, by decide⟩
  | toAnalysis => exact ⟨by decide, by decide⟩
  | toFinalizing => exact ⟨by decide, by decide⟩
  | toCompleted => exact ⟨by decide, by decide⟩
  | toFailed p hp => cases p <;> simp_all [phaseRank, phaseTerminal]

/-- C3: along any sequence of worker transitions the phase rank (the order
`pending → scraping → analysis → finalizing → completed`, with `failed`
final) is monotonically non-decreasing, terminal phases are absorbing (no
regression, `failed` reached only from non-terminal phases), and every value
of the client's `AnalysisPhase` union lies in the spec's phase vocabulary. -/
theorem phase_monotone (p q : Phase)
    (h : Relation.ReflTransGen PhaseStep p q) :
    phaseRank p ≤ phaseRank q ∧ (phaseTerminal p = true → q = p) ∧
    ∀ s ∈ clientAnalysisPhases, s ∈ specPhases := by
  induction h with
  | refl => exact ⟨le_refl _, fun _ => rfl, by decide⟩
  | tail hab hbc ih =>
    have hstep := phaseStep_rank hbc
    refine ⟨le_trans ih.1 (le_of_lt hstep.1), fun hterm => ?_, by decide⟩
    have hb := ih.2.1 hterm
    rw [hb] at hstep
    rw [hstep.2] at hterm
    cases hterm

/-- Witness for C3 on the concrete chain
`pending → scraping → analysis`. -/
theorem phase_monotone_witness :
    phaseRank Phase.pending ≤ phaseRank Phase.analysis ∧
    (phaseTerminal Phase.pending = true → Phase.analysis = Phase.pending) ∧
    ∀ s ∈ clientAnalysisPhases, s ∈ specPhases :=
  phase_monotone Phase.pending Phase.analysis
    (Relation.ReflTransGen.tail
      (Relation.ReflTransGen.tail Relation.ReflTransGen.refl
        PhaseStep.toScraping)
      PhaseStep.toAnalysis)

/-! ## C2: submissions for the same key are deduplicated into one job -/

/-- C2: `submit` is a single atomic step (the spec requires the dedup check
to be atomic with job creation), so a concurrent pair of submissions for the
same `(handle, platform)` executes as the two in serial order; the second
submission returns the first's `job_id` with status `existing` and creates
no second job, whatever the prior registry state. -/
theorem submit_dedup (o : Orchestrator) (handle platform : String) :
    (submit (submit o handle platform).1 handle platform).2.1
      = (submit o handle platform).2.1 ∧
    (submit (submit o handle platform).1 handle platform).1
      = (submit o handle platform).1 ∧
    (submit (submit o handle platform).1 handle platform).2.2
      = SubmitStatus.existing := by
  cases hfind : findActive o (dedupKey handle platform) with
  | some j =>
    simp [submit, hfind]
  | none =>
    have hsecond : findActive
        { jobs := o.jobs ++ [newJob o handle platform], nextId := o.nextId + 1 }
        (dedupKey handle platform) = some (newJob o handle platform) := by
      unfold findActive at hfind ⊢
      simp only [List.find?_append, hfind, Option.none_or]
      simp [newJob, phaseTerminal]
    simp [submit, hfind, hsecond]
    rfl

/-! ## C5: the error classifier and the rejection taxonomy -/

/-- C5 counterexample: a response body self-identifying as
`platform_resistance` (here with HTTP status 403) is stored verbatim by the
classifier, so the stored error's `type` is `platform_resistance`, which is
outside the claimed four-value taxonomy. -/
theorem handleResistanceError_escapes_taxonomy :
    handleResistanceError
        ⟨some 403, some "platform_resistance",
          some "Access temporarily restricted", false⟩
      = some ⟨some "platform_resistance", some "Access temporarily restricted"⟩
    ∧ "platform_resistance" ∉ rejectionTaxonomy := by
  constructor
  · simp [handleResistanceError]
  · decide

/-- C5 (amended): except for bodies the classifier stores verbatim (those
self-identifying as `platform_resistance` or carrying a
`data_integrity_verdict`), every stored error's type is in the taxonomy:
HTTP 429 maps to `rate_limit`, HTTP 403 with an `abuse_detection` body to
`abuse_detection`, and HTTP 503 to `maintenance` or `token_limit`. -/
theorem handleResistanceError_taxonomy (e : ErrInput) (st : StoredError)
    (hst : handleResistanceError e = some st)
    (hnp : e.dtype ≠ some "platform_resistance")
    (hnv : e.hasVerdict = false) :
    (e.status = some 429 → st.etype = some "rate_limit") ∧
    (e.status = some 403 ∧ e.dtype = some "abuse_detection" →
      st.etype = some "abuse_detection") ∧
    (e.status = some 503 →
      st.etype = some "maintenance" ∨ st.etype = some "token_limit") ∧
    ∃ t, st.etype = some t ∧ t ∈ rejectionTaxonomy := by
  unfold handleResistanceError at hst
  by_cases h2 : e.status = some 429
  · rw [if_neg hnp, if_pos h2] at hst
    injection hst with h
    subst h
    exact ⟨fun _ => rfl, fun hc => by simp [h2] at hc,
      fun hc => by simp [h2] at hc, ⟨"rate_limit", rfl, by decide⟩⟩
  · by_cases h3 : e.status = some 403 ∧ e.dtype = some "abuse_detection"
    · rw [if_neg hnp, if_neg h2, if_pos h3] at hst
      injection hst with h
      subst h
      exact ⟨fun hc => by simp [h3.1] at hc, fun _ => rfl,
        fun hc => by simp [h3.1] at hc, ⟨"abuse_detection", rfl, by decide⟩⟩
    · by_cases h4 : e.status = some 503
      · rw [if_neg hnp, if_neg h2, if_neg h3, if_pos h4] at hst
        by_cases h5 : e.dtype = some "token_limit"
        · rw [if_pos h5] at hst
          injection hst with h
          subst h
          exact ⟨fun hc => by simp [h4] at hc, fun hc => by simp [h4] at hc,
            fun _ => Or.inr rfl, ⟨"token_limit", rfl, by decide⟩⟩
        · rw [if_neg h5] at hst
          injection hst with h
          subst h
          exact ⟨fun hc => by simp [h4] at hc, fun hc => by simp [h4] at hc,
            fun _ => Or.inl rfl, ⟨"maintenance", rfl, by decide⟩⟩
      · rw [if_neg hnp, if_neg h2, if_neg h3, if_neg h4] at hst
        have h6 : ¬(e.dtype = some "platform_resistance" ∨ e.hasVerdict = true) := by
          rintro (hp | hv)
          · exact hnp hp
          · rw [hnv] at hv
            exact Bool.noConfusion hv
        rw [if_neg h6] at hst
        cases hst

/-- Witness for the amended C5 at a concrete 429 response. -/
theorem handleResistanceError_taxonomy_witness :
    (some 429 = some 429 →
      (StoredError.mk (some "rate_limit") (some "Rate limit exceeded")).etype
        = some "rate_limit") ∧
    ∃ t, (StoredError.mk (some "rate_limit")
        (some "Rate limit exceeded")).etype = some t ∧ t ∈ rejectionTaxonomy := by
  have h := handleResistanceError_taxonomy ⟨some 429, none, none, false⟩
    ⟨some "rate_limit", some "Rate limit exceeded"⟩
    (by simp [handleResistanceError]) (by simp) rfl
  exact ⟨h.1, h.2.2.2⟩

/-! ## C4: the rate limiter's check-and-increment -/

/-- The fold `listMin` never exceeds its accumulator. -/
theorem listMin_le_acc (xs : List ℤ) (acc : ℤ) : listMin xs acc ≤ acc := by
  induction xs generalizing acc with
  | nil => exact le_refl _
  | cons x xs ih => exact le_trans (ih (min acc x)) (min_le_left _ _)

/-- The fold `listMin` never exceeds a list element. -/
theorem listMin_le_mem (xs : List ℤ) (acc x : ℤ) (hx : x ∈ xs) :
    listMin xs acc ≤ x := by
  induction xs generalizing acc with
  | nil => cases hx
  | cons y ys ih =>
    rcases List.mem_cons.mp hx with h | h
    · subst h
      exact le_trans (listMin_le_acc ys (min acc x)) (min_le_right _ _)
    · exact ih (min acc y) h

/-- The fold `listMin` returns its accumulator or some element. -/
theorem listMin_attained (xs : List ℤ) (acc : ℤ) :
    listMin xs acc = acc ∨ listMin xs acc ∈ xs := by
  induction xs generalizing acc with
  | nil => exact Or.inl rfl
  | cons x xs ih =>
    rcases ih (min acc x) with h | h
    · rcases min_choice acc x with hm | hm
      · exact Or.inl (by rw [listMin, h, hm])
      · exact Or.inr (by rw [listMin, h, hm]; exact List.mem_cons_self _ _)
    · exact Or.inr (List.mem_cons_of_mem _ h)

/-- The minimum of a nonempty list is an element of it. -/
theorem listMin0_mem {l : List ℤ} (h : l ≠ []) : listMin0 l ∈ l := by
  cases l with
  | nil => exact absurd rfl h
  | cons x xs =>
    rcases listMin_attained xs x with h1 | h1
    · rw [listMin0, h1]
      exact List.mem_cons_self _ _
    · exact List.mem_cons_of_mem _ h1

/-- The minimum of a list bounds every element from below. -/
theorem listMin0_le {l : List ℤ} (x : ℤ) (hx : x ∈ l) : listMin0 l ≤ x := by
  cases l with
  | nil => cases hx
  | cons y ys =>
    rcases List.mem_cons.mp hx with h | h
    · subst h
      exact listMin_le_acc ys x
    · exact listMin_le_mem ys y x h

/-- A refreshed tier's counter never exceeds the stored counter. -/
theorem refreshTier_count_le (c : TierConfig) (t : TierState) (now : ℤ) :
    (refreshTier c t now).count ≤ t.count := by
  unfold refreshTier
  split_ifs <;> simp

/-- C4: `check_and_increment` allows a request exactly when all three
refreshed tiers are under their limits; when allowed, all three counters are
incremented; when rejected, no tier counter is incremented (the new state is
the refreshed tiers, whose counters never exceed the stored ones) and
`retry_after_seconds` is the time remaining in the soonest-to-reset failing
tier's window (an attained lower bound of the failing tiers' remainders). -/
theorem checkAndIncrement_correct (cfg : RLConfig) (s : RLState) (now : ℤ) :
    ((checkAndIncrement cfg s now).2.allowed = true ↔
      (refreshTier cfg.minute s.minute now).count < cfg.minute.limit ∧
      (refreshTier cfg.hour s.hour now).count < cfg.hour.limit ∧
      (refreshTier cfg.day s.day now).count < cfg.day.limit) ∧
    ((checkAndIncrement cfg s now).2.allowed = true →
      (checkAndIncrement cfg s now).1.minute.count
        = (refreshTier cfg.minute s.minute now).count + 1 ∧
      (checkAndIncrement cfg s now).1.hour.count
        = (refreshTier cfg.hour s.hour now).count + 1 ∧
      (checkAndIncrement cfg s now).1.day.count
        = (refreshTier cfg.day s.day now).count + 1) ∧
    ((checkAndIncrement cfg s now).2.allowed = false →
      (checkAndIncrement cfg s now).1.minute.count ≤ s.minute.count ∧
      (checkAndIncrement cfg s now).1.hour.count ≤ s.hour.count ∧
      (checkAndIncrement cfg s now).1.day.count ≤ s.day.count ∧
      (checkAndIncrement cfg s now).2.retryAfter
        ∈ failingRemainders cfg s now ∧
      ∀ x ∈ failingRemainders cfg s now,
        (checkAndIncrement cfg s now).2.retryAfter ≤ x) := by
  by_cases hok : (refreshTier cfg.minute s.minute now).count < cfg.minute.limit ∧
      (refreshTier cfg.hour s.hour now).count < cfg.hour.limit ∧
      (refreshTier cfg.day s.day now).count < cfg.day.limit
  · have hval : checkAndIncrement cfg s now =
        (⟨⟨(refreshTier cfg.minute s.minute now).count + 1,
            (refreshTier cfg.minute s.minute now).windowStart⟩,
          ⟨(refreshTier cfg.hour s.hour now).count + 1,
            (refreshTier cfg.hour s.hour now).windowStart⟩,
          ⟨(refreshTier cfg.day s.day now).count + 1,
            (refreshTier cfg.day s.day now).windowStart⟩⟩,
         ⟨true, cfg.minute.limit - ((refreshTier cfg.minute s.minute now).count + 1),
          cfg.hour.limit - ((refreshTier cfg.hour s.hour now).count + 1),
          cfg.day.limit - ((refreshTier cfg.day s.day now).count + 1), 0⟩) := by
      unfold checkAndIncrement
      rw [if_pos hok]
    rw [hval]
    refine ⟨by simp [hok], fun _ => ⟨rfl, rfl, rfl⟩, fun hfalse => ?_⟩
    cases hfalse
  · have hval : checkAndIncrement cfg s now =
        (⟨refreshTier cfg.minute s.minute now, refreshTier cfg.hour s.hour now,
          refreshTier cfg.day s.day now⟩,
         ⟨false,
          cfg.minute.limit - (refreshTier cfg.minute s.minute now).count,
          cfg.hour.limit - (refreshTier cfg.hour s.hour now).count,
          cfg.day.limit - (refreshTier cfg.day s.day now).count,
          listMin0 (failingRemainders cfg s now)⟩) := by
      unfold checkAndIncrement
      rw [if_neg hok]
      rfl
    rw [hval]
    have hne : failingRemainders cfg s now ≠ [] := by
      unfold failingRemainders
      by_cases hm : cfg.minute.limit ≤ (refreshTier cfg.minute s.minute now).count
      · simp [hm]
      · by_cases hh : cfg.hour.limit ≤ (refreshTier cfg.hour s.hour now).count
        · simp [hm, hh]
        · by_cases hd : cfg.day.limit ≤ (refreshTier cfg.day s.day now).count
          · simp [hm, hh, hd]
          · exact absurd ⟨not_le.mp hm, not_le.mp hh, not_le.mp hd⟩ hok
    refine ⟨by simp [hok], fun htrue => ?_, fun _ => ?_⟩
    · cases htrue
    · exact ⟨refreshTier_count_le _ _ _, refreshTier_count_le _ _ _,
        refreshTier_count_le _ _ _, listMin0_mem hne, fun x hx => listMin0_le x hx⟩

/-- Witness for C4 at a concrete rejected request: one unexpired minute tier
at its limit of 1 with a 60-second window, consulted at `now = 10`. -/
theorem checkAndIncrement_correct_witness :
    (checkAndIncrement ⟨⟨1, 60⟩, ⟨10, 3600⟩, ⟨100, 86400⟩⟩
        ⟨⟨1, 0⟩, ⟨1, 0⟩, ⟨1, 0⟩⟩ 10).2.allowed = false ∧
    (checkAndIncrement ⟨⟨1, 60⟩, ⟨10, 3600⟩, ⟨100, 86400⟩⟩
        ⟨⟨1, 0⟩, ⟨1, 0⟩, ⟨1, 0⟩⟩ 10).1.minute.count ≤ 1 ∧
    (checkAndIncrement ⟨⟨1, 60⟩, ⟨10, 3600⟩, ⟨100, 86400⟩⟩
        ⟨⟨1, 0⟩, ⟨1, 0⟩, ⟨1, 0⟩⟩ 10).2.retryAfter
      ∈ failingRemainders ⟨⟨1, 60⟩, ⟨10, 3600⟩, ⟨100, 86400⟩⟩
        ⟨⟨1, 0⟩, ⟨1, 0⟩, ⟨1, 0⟩⟩ 10 := by
  have h := checkAndIncrement_correct ⟨⟨1, 60⟩, ⟨10, 3600⟩, ⟨100, 86400⟩⟩
    ⟨⟨1, 0⟩, ⟨1, 0⟩, ⟨1, 0⟩⟩ 10
  have hfalse : (checkAndIncrement ⟨⟨1, 60⟩, ⟨10, 3600⟩, ⟨100, 86400⟩⟩
      ⟨⟨1, 0⟩, ⟨1, 0⟩, ⟨1, 0⟩⟩ 10).2.allowed = false := by decide
  have h3 := h.2.2 hfalse
  exact ⟨hfalse, h3.1, h3.2.2.2.1⟩

/-! ## C1: the polling loop is bounded and times out -/

/-- The polling loop performs at most `maxAttempts - a` further status
fetches from attempt counter `a`. -/
theorem pollAux_fetches_le (resp : ℕ → StatusResponse) (a : ℕ) (i : ℚ) :
    (pollAux resp a i).2 ≤ maxAttempts - a := by
  rw [pollAux]
  by_cases h : maxAttempts ≤ a
  · simp [h]
  · have ih := pollAux_fetches_le resp (a + 1) (nextInterval i)
    rw [dif_neg h]
    split_ifs <;> simp <;> omega
termination_by maxAttempts - a
decreasing_by omega

/-- If every response keeps the loop going, the loop runs out its attempt
budget and ends in the timeout error. -/
theorem pollAux_all_continue (resp : ℕ → StatusResponse)
    (hc : ∀ k, continues (resp k)) (a : ℕ) (i : ℚ) :
    pollAux resp a i = (PollOutcome.timeout, maxAttempts - a) := by
  rw [pollAux]
  by_cases h : maxAttempts ≤ a
  · rw [dif_pos h]
    have : maxAttempts - a = 0 := by omega
    rw [this]
  · obtain ⟨hok, hnc, hnf⟩ := hc a
    have ih := pollAux_all_continue resp hc (a + 1) (nextInterval i)
    rw [dif_neg h, if_pos hok, if_neg hnc, if_neg hnf, ih]
    have : maxAttempts - (a + 1) + 1 = maxAttempts - a := by omega
    rw [this]
termination_by maxAttempts - a
decreasing_by omega

/-- On a stream of HTTP 202 responses the `useReport` loop never produces
an outcome, whatever the iteration budget: nothing in the code bounds it. -/
theorem reportPollRun_202_none (rstat : ℕ → ℕ) (h202 : ∀ j, rstat j = 202) :
    ∀ n k, reportPollRun rstat k n = none := by
  intro n
  induction n with
  | zero => intro k; rfl
  | succ m ih =>
    intro k
    rw [reportPollRun, h202 k]
    norm_num
    exact ih (k + 1)

/-- C1 counterexample: the `useReport` polling loop of part_015, on the
constant stream of HTTP 202 responses, is still polling — no outcome, no
local timeout error — after 121 iterations (already past the 120-attempt
bound of the other loop) and equally after 12000 iterations: it reschedules
itself unconditionally with no attempt bound, so the claim's universal
quantification over every client-side polling loop fails. -/
theorem useReport_polls_past_bound :
    reportPollRun (fun _ => 202) 0 (maxAttempts + 1) = none ∧
    reportPollRun (fun _ => 202) 0 (100 * maxAttempts) = none :=
  ⟨reportPollRun_202_none (fun _ => 202) (fun _ => rfl) (maxAttempts + 1) 0,
   reportPollRun_202_none (fun _ => 202) (fun _ => rfl) (100 * maxAttempts) 0⟩

/-- C1 (amended): the `useAnalysisJob` status-polling loop performs a
bounded number of status fetches (at most `maxAttempts = 120`) and, when the
job never reaches a terminal phase within the budget, stops by setting the
local timeout error instead of polling forever; but this does not hold of
every client-side polling loop — the `useReport` loop of part_015
reschedules itself on HTTP 202 after a fixed 2000 ms with no attempt bound,
no backoff and no local timeout error, remaining outcome-free after any
number of all-202 iterations. -/
theorem poll_bounded_timeout (resp : ℕ → StatusResponse)
    (rstat : ℕ → ℕ) (h202 : ∀ j, rstat j = 202) (n k : ℕ) :
    (pollJobStatus resp).2 ≤ maxAttempts ∧
    ((∀ j, continues (resp j)) →
      pollJobStatus resp = (PollOutcome.timeout, maxAttempts)) ∧
    reportPollRun rstat k n = none := by
  refine ⟨pollAux_fetches_le resp 0 pollInitial, fun hc => ?_, ?_⟩
  · exact pollAux_all_continue resp hc 0 pollInitial
  · exact reportPollRun_202_none rstat h202 n k

/-- Witness for C1 on a status stream that forever reports phase `scraping`
and a report stream that forever answers HTTP 202. -/
theorem poll_bounded_timeout_witness :
    (pollJobStatus (fun _ => ⟨200, some "scraping", none, 200⟩)).2 ≤ maxAttempts ∧
    pollJobStatus (fun _ => ⟨200, some "scraping", none, 200⟩)
      = (PollOutcome.timeout, maxAttempts) ∧
    reportPollRun (fun _ => 202) 0 (maxAttempts + 1) = none := by
  have h := poll_bounded_timeout (fun _ => ⟨200, some "scraping", none, 200⟩)
    (fun _ => 202) (fun _ => rfl) (maxAttempts + 1) 0
  exact ⟨h.1, h.2.1 (fun j => ⟨by decide, by decide, by decide⟩), h.2.2⟩

/-! ## C6: results only for completed jobs -/

/-- A successful outcome of the polling loop can only arise from a response
whose phase is `completed` (with an ok report fetch). -/
theorem pollAux_success_from_completed (resp : ℕ → StatusResponse) (a : ℕ)
    (i : ℚ) (h : (pollAux resp a i).1 = PollOutcome.success) :
    ∃ k, isOkStatus (resp k).status = true ∧
      (resp k).phase = some "completed" ∧
      isOkStatus (resp k).reportStatus = true := by
  rw [pollAux] at h
  by_cases hm : maxAttempts ≤ a
  · rw [dif_pos hm] at h
    cases h
  · rw [dif_neg hm] at h
    by_cases hok : isOkStatus (resp a).status = true
    · rw [if_pos hok] at h
      by_cases hcomp : (resp a).phase = some "completed"
      · by_cases hrep : isOkStatus (resp a).reportStatus = true
        · exact ⟨a, hok, hcomp, hrep⟩
        · rw [if_pos hcomp, if_neg hrep] at h
          cases h
      · rw [if_neg hcomp] at h
        by_cases hfail : (resp a).phase = some "failed"
        · rw [if_pos hfail] at h
          cases h
        · rw [if_neg hfail] at h
          exact pollAux_success_from_completed resp (a + 1) (nextInterval i) h
    · rw [if_neg hok] at h
      cases h
termination_by maxAttempts - a
decreasing_by omega

/-- C6: `get_result` fails with `NotFound` for an unknown or expired job id
and with `NotReady` for any job whose phase is not `completed`; a result
payload is only ever returned for a `completed` job with a stored result,
and the client only fetches the report after observing phase `completed`. -/
theorem getResult_only_completed (ttl : ℕ) (o : Orchestrator) (id now : ℕ)
    (resp : ℕ → StatusResponse) (a : ℕ) (i : ℚ) :
    (findJob o id = none → getResult ttl o id now = ResultOutcome.notFound) ∧
    (∀ j, findJob o id = some j → jobExpired ttl j now = true →
      getResult ttl o id now = ResultOutcome.notFound) ∧
    (∀ j, findJob o id = some j → jobExpired ttl j now = false →
      j.phase ≠ Phase.completed →
      getResult ttl o id now = ResultOutcome.notReady) ∧
    (∀ r, getResult ttl o id now = ResultOutcome.ok r →
      ∃ j, findJob o id = some j ∧ j.phase = Phase.completed ∧
        j.result = some r) ∧
    ((pollAux resp a i).1 = PollOutcome.success →
      ∃ k, isOkStatus (resp k).status = true ∧
        (resp k).phase = some "completed" ∧
        isOkStatus (resp k).reportStatus = true) := by
  refine ⟨fun hnone => ?_, fun j hj hexp => ?_, fun j hj hexp hnc => ?_,
    fun r hr => ?_, fun h => pollAux_success_from_completed resp a i h⟩
  · unfold getResult
    rw [hnone]
  · simp [getResult, hj, hexp]
  · simp [getResult, hj, hexp, hnc]
  · cases hfind : findJob o id with
    | none => simp [getResult, hfind] at hr
    | some j =>
      by_cases hexp : jobExpired ttl j now = true
      · simp [getResult, hfind, hexp] at hr
      · by_cases hc : j.phase = Phase.completed
        · cases hres : j.result with
          | none => simp [getResult, hfind, hexp, hc, hres] at hr
          | some r0 =>
            simp [getResult, hfind, hexp, hc, hres] at hr
            exact ⟨j, rfl, hc, by rw [hres, hr]⟩
        · simp [getResult, hfind, hexp, hc] at hr

/-- Witness for C6 on a concrete registry with one `analysis`-phase job. -/
theorem getResult_only_completed_witness :
    getResult 3600
        ⟨[⟨1, "nike", "instagram", Phase.analysis, none, none, none⟩], 2⟩ 1 0
      = ResultOutcome.notReady ∧
    getResult 3600
        ⟨[⟨1, "nike", "instagram", Phase.analysis, none, none, none⟩], 2⟩ 7 0
      = ResultOutcome.notFound := by
  have h := getResult_only_completed 3600
    ⟨[⟨1, "nike", "instagram", Phase.analysis, none, none, none⟩], 2⟩ 1 0
    (fun _ => ⟨200, some "completed", none, 200⟩) 0 2000
  have h2 := getResult_only_completed 3600
    ⟨[⟨1, "nike", "instagram", Phase.analysis, none, none, none⟩], 2⟩ 7 0
    (fun _ => ⟨200, some "completed", none, 200⟩) 0 2000
  exact ⟨h.2.2.1 ⟨1, "nike", "instagram", Phase.analysis, none, none, none⟩
      rfl rfl (by decide), h2.1 rfl⟩

/-! ## C7: execution errors are captured and surfaced, never dropped -/

/-- C7: when a delegated collaborator fails, the worker writes
`phase = failed` with the error message captured in the job's `error` field
(a terminal state, never a silently stuck non-terminal job); and when the
client's poll observes phase `failed` it surfaces the job's error (or the
default `Analysis failed`) and stops polling (exactly one more fetch, no
rescheduling). -/
theorem job_errors_surfaced (j : Job) (now : ℕ) (msg : String)
    (resp : ℕ → StatusResponse) (a : ℕ) (i : ℚ)
    (ha : a < maxAttempts)
    (hokst : isOkStatus (resp a).status = true)
    (hfail : (resp a).phase = some "failed") :
    (workerFinish j now (Except.error msg)).phase = Phase.failed ∧
    (workerFinish j now (Except.error msg)).error = some msg ∧
    phaseTerminal (workerFinish j now (Except.error msg)).phase = true ∧
    pollAux resp a i
      = (PollOutcome.failedJob ((resp a).jobError.getD "Analysis failed"), 1) := by
  refine ⟨rfl, rfl, rfl, ?_⟩
  have hnc : (resp a).phase ≠ some "completed" := by
    rw [hfail]
    simp
  rw [pollAux, dif_neg (by omega), if_pos hokst, if_neg hnc, if_pos hfail]

/-- Witness for C7 at a concrete failed job and a concrete failure
response. -/
theorem job_errors_surfaced_witness :
    (workerFinish ⟨1, "nike", "instagram", Phase.analysis, none, none, none⟩ 5
        (Except.error "Scrape failed")).phase = Phase.failed ∧
    (workerFinish ⟨1, "nike", "instagram", Phase.analysis, none, none, none⟩ 5
        (Except.error "Scrape failed")).error = some "Scrape failed" ∧
    pollAux (fun _ => ⟨200, some "failed", some "Scrape failed", 200⟩) 0 2000
      = (PollOutcome.failedJob "Scrape failed", 1) := by
  have h := job_errors_surfaced
    ⟨1, "nike", "instagram", Phase.analysis, none, none, none⟩ 5 "Scrape failed"
    (fun _ => ⟨200, some "failed", some "Scrape failed", 200⟩) 0 2000
    (by decide) (by decide) rfl
  exact ⟨h.1, h.2.1, h.2.2.2⟩

end SponsorScope
